import Mathlib

/-!
Shallow embedding of the tiered cache / rate-limiter core of the repository
(`src/lib/cache.ts`, `src/lib/rate-limit.ts`, `src/lib/redis.ts`, and the
Redis-backed cache variant).

Modelling conventions:
* JavaScript `Map` objects become association lists `List (String × α)` with
  JS `Map` semantics: `set` replaces in place or appends, `delete` removes the
  entry and reports whether it existed, `size` is the raw entry count.
* JS numbers (timestamps, counters, TTLs) become `Int`; `Date.now()` becomes an
  explicit `now : Int` argument threaded to each operation.
* The external Redis client is an abstract connection record whose methods may
  fail (`Except StoreErr`), mirroring a rejected promise; an uncaught `await`
  corresponds to monadic propagation of the error.  An honest test double
  (`kvOk` / `ctrOk`) implements the Redis semantics over an explicit store:
  a key is live while `now ≤ expireAt` (Redis treats a key as expired only
  strictly after its expiry time), and `pttl` returns `expireAt - now`.
* `JSON.stringify` / `JSON.parse` become an abstract codec `enc : V → String`,
  `dec : String → Option V`; lossless payloads satisfy `dec (enc v) = some v`.
-/

set_option autoImplicit false

namespace ThcCache

variable {α : Type} {V : Type}

/-- Error raised by the distributed store (unreachable, timeout, rejection). -/
inductive StoreErr : Type
  | unreachable
  | timeout
  | rejected
  deriving DecidableEq, Repr

/-! ### JS `Map` as an association list -/

/-- `Map.get`: first binding of the key, if any. -/
def jsGet : List (String × α) → String → Option α
  | [], _ => none
  | (k', v) :: es, k => if k' = k then some v else jsGet es k

/-- `Map.has` on raw keys (no expiry logic). -/
def jsHasKey : List (String × α) → String → Bool
  | [], _ => false
  | (k', _) :: es, k => (k' = k) || jsHasKey es k

/-- `Map.set`: replace the binding in place, or append a fresh one. -/
def jsSetA : List (String × α) → String → α → List (String × α)
  | [], k, v => [(k, v)]
  | (k', v') :: es, k, v =>
    if k' = k then (k, v) :: es else (k', v') :: jsSetA es k v

/-- `Map.delete`'s state effect: remove the binding of the key. -/
def jsEraseKey : List (String × α) → String → List (String × α)
  | [], _ => []
  | (k', v') :: es, k => if k' = k then es else (k', v') :: jsEraseKey es k

/-- Keys are pairwise distinct (the invariant a JS `Map` maintains). -/
def KeysNodup (m : List (String × α)) : Prop :=
  m.Pairwise (fun a b => a.1 ≠ b.1)

/-! ### The in-memory cache (`Cache` in `cache.ts`, `MemoryCache` in the
Redis-backed variant; the two classes have identical bodies).  The module
flag `DISABLE_IN_MEMORY_CACHE` is threaded as the explicit `disabled`
argument; `Date.now()` is the explicit `now`. -/

/-- Store of one cache instance: key ↦ (value, absolute expiry). -/
def CacheStore (V : Type) : Type := List (String × (V × Int))

/-- JS `ttl || this.defaultTTL`: an absent or zero (falsy) ttl means the
namespace default. -/
def ttlOr (ttl : Option Int) (defaultTTL : Int) : Int :=
  match ttl with
  | none => defaultTTL
  | some t => if t = 0 then defaultTTL else t

/-- `Cache.set`. -/
def cacheSet (disabled : Bool) (defaultTTL now : Int) (k : String) (v : V)
    (ttl : Option Int) (s : CacheStore V) : CacheStore V :=
  if disabled then s else jsSetA s k (v, now + ttlOr ttl defaultTTL)

/-- `Cache.get`: returns the value and the (possibly lazily-evicted) store. -/
def cacheGet (disabled : Bool) (now : Int) (k : String) (s : CacheStore V) :
    Option V × CacheStore V :=
  if disabled then (none, s)
  else
    match jsGet s k with
    | none => (none, s)
    | some (v, expires) =>
      if now > expires then (none, jsEraseKey s k) else (some v, s)

/-- `Cache.delete`: returns `Map.delete`'s answer (raw presence, expired
entries included) and the updated store. -/
def cacheDelete (disabled : Bool) (k : String) (s : CacheStore V) :
    Bool × CacheStore V :=
  if disabled then (false, s) else (jsHasKey s k, jsEraseKey s k)

/-- `Cache.clear`. -/
def cacheClear (disabled : Bool) (s : CacheStore V) : CacheStore V :=
  if disabled then s else []

/-- `Cache.has`: present and `Date.now() <= item.expires`. -/
def cacheHas (disabled : Bool) (now : Int) (k : String) (s : CacheStore V) :
    Bool :=
  if disabled then false
  else
    match jsGet s k with
    | none => false
    | some (_, expires) => decide (now ≤ expires)

/-- `Cache.size`: the raw `Map.size`. -/
def cacheSize (disabled : Bool) (s : CacheStore V) : Int :=
  if disabled then 0 else (s.length : Int)

/-- `Cache.cleanup`: drop every entry with `now > expires`. -/
def cacheCleanup (disabled : Bool) (now : Int) (s : CacheStore V) :
    CacheStore V :=
  if disabled then s else s.filter (fun e => !(decide (now > e.2.2)))

/-- Specification-side count of currently live (non-expired) entries: the
entries a concurrent `get` would still return. -/
def liveEntryCount (now : Int) (s : CacheStore V) : Int :=
  ((s.filter (fun e => decide (now ≤ e.2.2))).length : Int)

/-! ### Rate limiter (`rate-limit.ts`) -/

/-- Result record of one limiter check. -/
structure RateLimitResult where
  success : Bool
  limit : Int
  remaining : Int
  reset : Int
  deriving DecidableEq, Repr

/-- `memoryStore`: key ↦ (count, resetTime). -/
def MemStore : Type := List (String × (Int × Int))

/-- `memoryRateLimit` from `rate-limit.ts`, for one call at `now`. -/
def memoryRateLimit (windowMs maxReq : Int) (key : String) (now : Int)
    (m : MemStore) : RateLimitResult × MemStore :=
  match jsGet m key with
  | none =>
    ({ success := true, limit := maxReq, remaining := maxReq - 1,
       reset := now + windowMs }, jsSetA m key (1, now + windowMs))
  | some (count, resetTime) =>
    if resetTime < now then
      ({ success := true, limit := maxReq, remaining := maxReq - 1,
         reset := now + windowMs }, jsSetA m key (1, now + windowMs))
    else if count ≥ maxReq then
      ({ success := false, limit := maxReq, remaining := 0,
         reset := resetTime }, m)
    else
      ({ success := true, limit := maxReq, remaining := maxReq - (count + 1),
         reset := resetTime }, jsSetA m key (count + 1, resetTime))

/-- Abstract Redis client as used by the limiter (`incr` / `pexpire` /
`pttl`); every method may fail, modelling a rejected promise. -/
structure CtrConn (σ : Type) where
  incr : String → σ → Except StoreErr (Int × σ)
  pexpire : String → Int → σ → Except StoreErr σ
  pttl : String → σ → Except StoreErr (Int × σ)

/-- Body of `redisRateLimit` after its `isRedisEnabled` guard: `incr`, a
`pexpire` on first hit, `pttl`, then the allow/deny decision.  An error from
any client call propagates (the source has no try/catch). -/
def redisRateLimit {σ : Type} (c : CtrConn σ) (windowMs maxReq : Int)
    (key : String) (now : Int) (s : σ) :
    Except StoreErr (RateLimitResult × σ) := do
  let r ← c.incr key s
  let count := r.1
  let s ← if count = 1 then c.pexpire key windowMs r.2 else pure r.2
  let t ← c.pttl key s
  let reset := if t.1 > 0 then now + t.1 else now + windowMs
  if count > maxReq then
    return ({ success := false, limit := maxReq, remaining := 0,
              reset := reset }, t.2)
  else
    return ({ success := true, limit := maxReq, remaining := maxReq - count,
              reset := reset }, t.2)

/-- `rateLimit` dispatch plus the in-function guard of `redisRateLimit`: with
no Redis configured, both fall through to `memoryRateLimit`. -/
def rateLimitCheck {σ : Type} (redisConfigured : Bool) (c : CtrConn σ)
    (windowMs maxReq : Int) (key : String) (now : Int) (m : MemStore)
    (s : σ) : Except StoreErr (RateLimitResult × MemStore × σ) :=
  if redisConfigured then
    (redisRateLimit c windowMs maxReq key now s).map (fun r => (r.1, m, r.2))
  else
    .ok ((memoryRateLimit windowMs maxReq key now m).1,
         (memoryRateLimit windowMs maxReq key now m).2, s)

/-! ### Honest counter-store double for the limiter.  Redis semantics: a key
is live while `now ≤ expireAt` (expiry for the double is strict passage of
the deadline); `incr` on a missing or dead key creates count 1 with no
expiry; `pttl` is `-2` for a missing/dead key, `-1` without expiry. -/

/-- Counter store: key ↦ (count, optional absolute expiry). -/
def CStore : Type := List (String × (Int × Option Int))

/-- Live lookup in the counter store. -/
def ctrLookupLive (now : Int) (s : CStore) (k : String) :
    Option (Int × Option Int) :=
  match jsGet s k with
  | none => none
  | some (c, none) => some (c, none)
  | some (c, some t) => if now ≤ t then some (c, some t) else none

/-- `INCR` of the double. -/
def ctrIncr (now : Int) (k : String) (s : CStore) : Int × CStore :=
  match ctrLookupLive now s k with
  | some (c, e) => (c + 1, jsSetA s k (c + 1, e))
  | none => (1, jsSetA s k (1, none))

/-- `PEXPIRE` of the double (no-op on a missing/dead key). -/
def ctrPexpire (now : Int) (k : String) (ttl : Int) (s : CStore) : CStore :=
  match ctrLookupLive now s k with
  | some (c, _) => jsSetA s k (c, some (now + ttl))
  | none => s

/-- `PTTL` of the double. -/
def ctrPttl (now : Int) (k : String) (s : CStore) : Int :=
  match ctrLookupLive now s k with
  | none => -2
  | some (_, none) => -1
  | some (_, some t) => t - now

/-- The honest, never-failing counter client at instant `now`. -/
def ctrOk (now : Int) : CtrConn CStore where
  incr := fun k s => .ok (ctrIncr now k s)
  pexpire := fun k ttl s => .ok (ctrPexpire now k ttl s)
  pttl := fun k s => .ok (ctrPttl now k s, s)

/-- A client whose every call fails with `e` (store unreachable). -/
def ctrFail (e : StoreErr) : CtrConn Unit where
  incr := fun _ _ => .error e
  pexpire := fun _ _ _ => .error e
  pttl := fun _ _ => .error e

/-! ### `RedisCache` (Redis-backed cache variant).  The Redis client is an
abstract key-value connection whose methods may fail; the honest double
`kvOk` keeps key ↦ (payload, absolute expiry) with a key live while
`now ≤ expireAt`. -/

/-- Abstract Redis client as used by `RedisCache`. -/
structure KvConn (σ : Type) where
  get : String → σ → Except StoreErr (Option String × σ)
  set : String → String → Int → σ → Except StoreErr σ
  del : String → σ → Except StoreErr (Int × σ)
  pttl : String → σ → Except StoreErr (Int × σ)

/-- `RedisCache.k`: namespace-prefixed full key. -/
def rk (ns k : String) : String := ns ++ ":" ++ k

/-- `RedisCache.set`: `redis.set(key, JSON.stringify(value), { px: ttlMs })`;
`redisConfigured` models the `if (!redis) return` guard. -/
def rcSet {σ : Type} (enc : V → String) (redisConfigured : Bool)
    (c : KvConn σ) (ns : String) (defaultTTL : Int) (k : String) (v : V)
    (ttl : Option Int) (s : σ) : Except StoreErr σ :=
  if redisConfigured then c.set (rk ns k) (enc v) (ttlOr ttl defaultTTL) s
  else .ok s

/-- `RedisCache.get`: a falsy raw payload (missing or empty string) is a
miss; only `JSON.parse` is guarded by try/catch, so a parse failure yields
`none` while a client error propagates. -/
def rcGet {σ : Type} (dc : String → Option V) (redisConfigured : Bool)
    (c : KvConn σ) (ns k : String) (s : σ) :
    Except StoreErr (Option V × σ) :=
  if redisConfigured then do
    let r ← c.get (rk ns k) s
    match r.1 with
    | none => .ok (none, r.2)
    | some payload =>
      if payload = "" then .ok (none, r.2) else .ok (dc payload, r.2)
  else .ok (none, s)

/-- `RedisCache.delete`: `redis.del` then `res > 0`. -/
def rcDelete {σ : Type} (redisConfigured : Bool) (c : KvConn σ)
    (ns k : String) (s : σ) : Except StoreErr (Bool × σ) :=
  if redisConfigured then do
    let r ← c.del (rk ns k) s
    .ok (decide (0 < r.1), r.2)
  else .ok (false, s)

/-- `RedisCache.has`: `pttl > 0`. -/
def rcHas {σ : Type} (redisConfigured : Bool) (c : KvConn σ) (ns k : String)
    (s : σ) : Except StoreErr (Bool × σ) :=
  if redisConfigured then do
    let r ← c.pttl (rk ns k) s
    .ok (decide (0 < r.1), r.2)
  else .ok (false, s)

/-- Store of the honest KV double: full key ↦ (payload, absolute expiry). -/
def RStore : Type := List (String × (String × Int))

/-- Live lookup in the KV double (Redis drops expired keys natively). -/
def kvLookupLive (now : Int) (s : RStore) (k : String) : Option String :=
  match jsGet s k with
  | none => none
  | some (p, e) => if now ≤ e then some p else none

/-- The honest, never-failing KV client at instant `now`.  `del` reports how
many live keys it removed; `pttl` is `-2` for a missing or dead key. -/
def kvOk (now : Int) : KvConn RStore where
  get := fun k s => .ok (kvLookupLive now s k, s)
  set := fun k p ttl s => .ok (jsSetA s k (p, now + ttl))
  del := fun k s =>
    .ok (if (kvLookupLive now s k).isSome then 1 else 0, jsEraseKey s k)
  pttl := fun k s =>
    .ok ((match jsGet s k with
          | none => -2
          | some (_, e) => if now ≤ e then e - now else -2), s)

/-- A KV client whose every call fails with `e` (store unreachable). -/
def kvFail (e : StoreErr) : KvConn Unit where
  get := fun _ _ => .error e
  set := fun _ _ _ _ => .error e
  del := fun _ _ => .error e
  pttl := fun _ _ => .error e

/-- `RedisCache.size` run against the honest double: the `scan` cursor loop
is served in one page holding every live key that matches the
`prefix:*` pattern (cursor returns 0), so the loop body runs once and the
result is the number of live namespace keys. -/
def rcSizeOk (now : Int) (ns : String) (s : RStore) : Int :=
  (((s.filter
      (fun e => decide (now ≤ e.2.2) && (ns ++ ":").isPrefixOf e.1)).length
    : Nat) : Int)

/-- `RedisCache.clear` run against the honest double, with the same
single-page `scan` service: deletes every live namespace key. -/
def rcClearOk (now : Int) (ns : String) (s : RStore) : RStore :=
  s.filter (fun e => !(decide (now ≤ e.2.2) && (ns ++ ":").isPrefixOf e.1))

/-! ### Module wiring of the Redis-backed variant: mode flags and the
namespace instances. -/

/-- `DISABLE_IN_MEMORY_CACHE = process.env.NODE_ENV === 'production' &&
isRedisEnabled()` in the Redis-backed variant. -/
def DISABLE_IN_MEMORY_CACHE (prodEnv redisCfg : Bool) : Bool :=
  prodEnv && redisCfg

/-- Unwrap an `Except` that is known not to fail (honest double). -/
def okOr {β : Type} (d : β) : Except StoreErr β → β
  | .ok b => b
  | .error _ => d

/-- Combined state of one namespace instance: the local map and the shared
Redis store (only one of the two is consulted, per `useRedis`). -/
structure TierState (V : Type) where
  mem : CacheStore V
  rs : RStore

/-- Namespace-instance `set`: `useRedis ? RedisCache : MemoryCache`, with the
memory branch gated by `DISABLE_IN_MEMORY_CACHE` and the Redis branch run
against the honest double. -/
def tierSet (enc : V → String) (prodEnv redisCfg : Bool) (ns : String)
    (defaultTTL now : Int) (k : String) (v : V) (ttl : Option Int)
    (st : TierState V) : TierState V :=
  if redisCfg then
    { st with
      rs := okOr st.rs (rcSet enc true (kvOk now) ns defaultTTL k v ttl st.rs) }
  else
    { st with
      mem := cacheSet (DISABLE_IN_MEMORY_CACHE prodEnv redisCfg) defaultTTL
        now k v ttl st.mem }

/-- Namespace-instance `get` (observed value only). -/
def tierGet (dc : String → Option V) (prodEnv redisCfg : Bool) (ns : String)
    (now : Int) (k : String) (st : TierState V) : Option V :=
  if redisCfg then (okOr (none, st.rs) (rcGet dc true (kvOk now) ns k st.rs)).1
  else (cacheGet (DISABLE_IN_MEMORY_CACHE prodEnv redisCfg) now k st.mem).1

/-- Namespace-instance `size`. -/
def tierSize (prodEnv redisCfg : Bool) (ns : String) (now : Int)
    (st : TierState V) : Int :=
  if redisCfg then rcSizeOk now ns st.rs
  else cacheSize (DISABLE_IN_MEMORY_CACHE prodEnv redisCfg) st.mem

/-! ### Cache key generators (`cacheKeys`). -/

/-- `cacheKeys.user`. -/
def cacheKeysUser (id : String) : String := "user:" ++ id

/-- `cacheKeys.userByEmail`. -/
def cacheKeysUserByEmail (email : String) : String := "user:email:" ++ email

/-- Specification-side count of expired-but-unswept entries. -/
def expiredEntryCount (now : Int) (s : CacheStore V) : Int :=
  ((s.filter (fun e => decide (now > e.2.2))).length : Int)

/-- A concrete lossless payload codec (stand-in for `JSON.stringify` on a
boolean payload), used to instantiate the codec-generic theorems. -/
def encB (b : Bool) : String := if b then "true" else "false"

/-- Concrete decoder matching `encB` (stand-in for `JSON.parse`). -/
def decB (s : String) : Option Bool :=
  if s = "true" then some true else if s = "false" then some false else none

/-- A KV client double that answers every read with a fixed raw payload
(used to model a stored value whose payload does not deserialize). -/
def kvConst (raw : String) : KvConn Unit where
  get := fun _ _ => .ok (some raw, ())
  set := fun _ _ _ _ => .ok ()
  del := fun _ _ => .ok (0, ())
  pttl := fun _ _ => .ok (-2, ())

/-! ### Association-list lemmas -/

@[simp] theorem jsGet_set_self (m : List (String × α)) (k : String) (v : α) :
    jsGet (jsSetA m k v) k = some v := by
  induction m with
  | nil => simp [jsSetA, jsGet]
  | cons e es ih =>
    obtain ⟨k', v'⟩ := e
    by_cases h : k' = k
    · simp [jsSetA, jsGet, h]
    · simp [jsSetA, jsGet, h, ih]

theorem jsGet_set_ne (m : List (String × α)) (k k' : String) (v : α)
    (h : k' ≠ k) : jsGet (jsSetA m k v) k' = jsGet m k' := by
  have hk : ¬ (k = k') := fun hh => h hh.symm
  induction m with
  | nil => simp [jsSetA, jsGet, hk]
  | cons e es ih =>
    obtain ⟨k₀, v₀⟩ := e
    by_cases h0 : k₀ = k
    · subst h0
      simp [jsSetA, jsGet, hk]
    · simp only [jsSetA, if_neg h0, jsGet]
      by_cases h1 : k₀ = k'
      · simp [h1]
      · simp [h1, ih]

theorem jsGet_eq_none_of_nokey (m : List (String × α)) (k : String)
    (h : ∀ p ∈ m, p.1 ≠ k) : jsGet m k = none := by
  induction m with
  | nil => rfl
  | cons e es ih =>
    obtain ⟨k', v'⟩ := e
    have hk : k' ≠ k := h (k', v') (by simp)
    simp only [jsGet, if_neg hk]
    exact ih (fun p hp => h p (by simp [hp]))

theorem jsGet_erase_self (m : List (String × α)) (k : String)
    (hnd : KeysNodup m) : jsGet (jsEraseKey m k) k = none := by
  induction m with
  | nil => rfl
  | cons e es ih =>
    obtain ⟨k', v'⟩ := e
    rw [KeysNodup, List.pairwise_cons] at hnd
    by_cases h : k' = k
    · subst h
      simp only [jsEraseKey, if_pos rfl]
      exact jsGet_eq_none_of_nokey es k' (fun p hp => (hnd.1 p hp).symm)
    · simp only [jsEraseKey, if_neg h, jsGet, if_neg h]
      exact ih hnd.2

theorem jsGet_erase_ne (m : List (String × α)) (k k' : String)
    (h : k' ≠ k) : jsGet (jsEraseKey m k) k' = jsGet m k' := by
  induction m with
  | nil => rfl
  | cons e es ih =>
    obtain ⟨k₀, v₀⟩ := e
    by_cases h0 : k₀ = k
    · subst h0
      have hne : ¬ k₀ = k' := fun hh => h hh.symm
      simp [jsEraseKey, jsGet, hne]
    · simp only [jsEraseKey, if_neg h0, jsGet]
      by_cases h1 : k₀ = k'
      · simp [h1]
      · simp [h1, ih]

theorem jsHasKey_iff_get (m : List (String × α)) (k : String) :
    jsHasKey m k = true ↔ jsGet m k ≠ none := by
  induction m with
  | nil => simp [jsHasKey, jsGet]
  | cons e es ih =>
    obtain ⟨k', v'⟩ := e
    by_cases h : k' = k
    · simp [jsHasKey, jsGet, h]
    · simp [jsHasKey, jsGet, h, ih]

theorem jsSetA_same (m : List (String × α)) (k : String) (v v' : α) :
    jsSetA (jsSetA m k v) k v' = jsSetA m k v' := by
  induction m with
  | nil => simp [jsSetA]
  | cons e es ih =>
    obtain ⟨k₀, v₀⟩ := e
    by_cases h : k₀ = k
    · simp [jsSetA, h]
    · simp [jsSetA, h, ih]

theorem length_filter_split {β : Type} (l : List β) (p : β → Bool) :
    l.length = (l.filter p).length + (l.filter (fun b => !(p b))).length := by
  induction l with
  | nil => rfl
  | cons a l ih =>
    by_cases h : p a
    · simp [List.filter_cons, h]
      omega
    · simp [List.filter_cons, h]
      omega

theorem rk_inj_right (ns k k' : String) (h : rk ns k = rk ns k') : k = k' := by
  have hd : ((ns ++ ":") ++ k).data = ((ns ++ ":") ++ k').data := by
    rw [show (ns ++ ":") ++ k = rk ns k from rfl,
      show (ns ++ ":") ++ k' = rk ns k' from rfl, h]
  simp [String.data_append] at hd
  exact congrArg String.mk hd

@[simp] theorem except_bind_ok {β γ : Type} (a : β)
    (f : β → Except StoreErr γ) : (Except.ok a >>= f : Except StoreErr γ) = f a :=
  rfl

@[simp] theorem except_bind_err {β γ : Type} (e : StoreErr)
    (f : β → Except StoreErr γ) :
    (Except.error e >>= f : Except StoreErr γ) = Except.error e :=
  rfl

/-! ### Claim theorems -/

/-- C10: the key-construction functions are not jointly injective — for every
email `e`, `cacheKeys.user ("email:" ++ e)` is exactly the same key string as
`cacheKeys.userByEmail e`, so a user-by-id entry and a user-by-email entry can
alias within the user namespace. -/
theorem c10_user_key_alias (e : String) :
    cacheKeysUser ("email:" ++ e) = cacheKeysUserByEmail e := by
  show "user:" ++ ("email:" ++ e) = "user:email:" ++ e
  rw [← String.append_assoc]
  rfl

/-- C7: with the cache enabled and `ttl > 0`, immediately after
`set k v ttl` a `get k` returns the value and `has k` is true; once strictly
more than `ttl` ms have elapsed, `get k` returns absent and `has k` is
false. -/
theorem c7_ttl_semantics {V : Type} (d ttl t0 t : Int) (k : String) (v : V)
    (s0 : CacheStore V) (httl : 0 < ttl) (ht : t0 + ttl < t) :
    (cacheGet false t0 k (cacheSet false d t0 k v (some ttl) s0)).1 = some v ∧
    cacheHas false t0 k (cacheSet false d t0 k v (some ttl) s0) = true ∧
    (cacheGet false t k (cacheSet false d t0 k v (some ttl) s0)).1 = none ∧
    cacheHas false t k (cacheSet false d t0 k v (some ttl) s0) = false := by
  have hne : ttl ≠ 0 := by omega
  have hset : cacheSet false d t0 k v (some ttl) s0 = jsSetA s0 k (v, t0 + ttl) := by
    simp [cacheSet, ttlOr, hne]
  have hget : jsGet (jsSetA s0 k (v, t0 + ttl)) k = some (v, t0 + ttl) :=
    jsGet_set_self s0 k (v, t0 + ttl)
  refine ⟨?_, ?_, ?_, ?_⟩ <;> rw [hset]
  · simp only [cacheGet, if_neg (by simp : ¬ (false = true)), hget]
    rw [if_neg (by omega : ¬ t0 > t0 + ttl)]
  · simp only [cacheHas, if_neg (by simp : ¬ (false = true)), hget]
    simp only [decide_eq_true_eq]
    omega
  · simp only [cacheGet, if_neg (by simp : ¬ (false = true)), hget]
    rw [if_pos (by omega : t > t0 + ttl)]
  · simp only [cacheHas, if_neg (by simp : ¬ (false = true)), hget]
    simp only [decide_eq_false_iff_not]
    omega

/-- Witness for C7 at a concrete input. -/
theorem c7_ttl_semantics_witness :
    (cacheGet false 0 "k" (cacheSet false 300000 0 "k" true (some 5)
      ([] : CacheStore Bool))).1 = some true ∧
    cacheHas false 0 "k" (cacheSet false 300000 0 "k" true (some 5)
      ([] : CacheStore Bool)) = true ∧
    (cacheGet false 6 "k" (cacheSet false 300000 0 "k" true (some 5)
      ([] : CacheStore Bool))).1 = none ∧
    cacheHas false 6 "k" (cacheSet false 300000 0 "k" true (some 5)
      ([] : CacheStore Bool)) = false :=
  c7_ttl_semantics 300000 5 0 6 "k" true [] (by decide) (by decide)

/-- C8 counterexample: an entry that has expired but is not yet swept — a
concurrent `get` reports absent — is still reported `true` by `delete`,
contradicting "delete returns true exactly when the key was present (not
expired)". -/
theorem c8_counterexample :
    (cacheGet false 10 "k" [("k", (true, 5))]).1 = none ∧
    (cacheDelete false "k" [("k", (true, 5))]).1 = true := by
  decide

/-- C8 amended: the local-map `delete` returns whether the raw map entry
existed (expired-but-unswept entries included) and afterwards `get` is
absent; the distributed `delete` returns whether the key was live; disabled
mode always returns false. -/
theorem c8_delete_amended {V : Type} (s : CacheStore V) (rs : RStore)
    (k ns : String) (now tm : Int) (dc : String → Option V)
    (hnd : KeysNodup s) (hrd : KeysNodup rs) :
    (cacheDelete false k s).1 = jsHasKey s k ∧
    (cacheGet false tm k (cacheDelete false k s).2).1 = none ∧
    rcDelete true (kvOk now) ns k rs
      = .ok ((kvLookupLive now rs (rk ns k)).isSome, jsEraseKey rs (rk ns k)) ∧
    rcGet dc true (kvOk now) ns k (jsEraseKey rs (rk ns k))
      = .ok (none, jsEraseKey rs (rk ns k)) ∧
    (cacheDelete true k s).1 = false := by
  refine ⟨rfl, ?_, ?_, ?_, rfl⟩
  · have herase : jsGet (jsEraseKey s k) k = none := jsGet_erase_self s k hnd
    simp [cacheDelete, cacheGet, herase]
  · simp only [rcDelete, kvOk, if_pos rfl]
    cases hl : (kvLookupLive now rs (rk ns k)).isSome <;> simp [hl]
  · have herase : jsGet (jsEraseKey rs (rk ns k)) (rk ns k) = none :=
      jsGet_erase_self rs (rk ns k) hrd
    simp [rcGet, kvOk, kvLookupLive, herase]

/-- Witness for C8's amended theorem at a concrete input. -/
theorem c8_delete_amended_witness :
    (cacheDelete false "k" [("k", (true, 5))]).1
      = jsHasKey [("k", (true, 5))] "k" ∧
    (cacheGet false 10 "k" (cacheDelete false "k" [("k", (true, 5))]).2).1
      = none ∧
    rcDelete true (kvOk 10) "user" "k" [("user:k", ("true", 5))]
      = .ok ((kvLookupLive 10 [("user:k", ("true", 5))] (rk "user" "k")).isSome,
             jsEraseKey [("user:k", ("true", 5))] (rk "user" "k")) ∧
    rcGet decB true (kvOk 10) "user" "k"
        (jsEraseKey [("user:k", ("true", 5))] (rk "user" "k"))
      = .ok (none, jsEraseKey [("user:k", ("true", 5))] (rk "user" "k")) ∧
    (cacheDelete true "k" [("k", (true, 5))]).1 = false :=
  c8_delete_amended [("k", (true, 5))] [("user:k", ("true", 5))] "k" "user"
    10 10 decB (by simp [KeysNodup]) (by simp [KeysNodup])

/-- C9 counterexample: `size()` counts an expired-but-unswept entry, so it is
not the number of currently live entries. -/
theorem c9_counterexample :
    cacheSize false [("k", (true, 5))] = 1 ∧
    liveEntryCount 10 [("k", (true, 5))] = 0 ∧
    cacheSize false [("k", (true, 5))] ≠ liveEntryCount 10 [("k", (true, 5))] := by
  decide

/-- C9 amended: the local-map `size()` is the raw entry count — live entries
plus expired-but-unswept ones; only after `cleanup` does it equal the live
count; disabled mode reports 0; and the distributed backend's `size` ignores
an expired entry. -/
theorem c9_size_amended {V : Type} (s : CacheStore V) (now : Int)
    (ns fullKey payload : String) (rs : RStore) (e : Int)
    (hexp : e < now) :
    cacheSize false s = liveEntryCount now s + expiredEntryCount now s ∧
    cacheSize false (cacheCleanup false now s) = liveEntryCount now s ∧
    cacheSize true s = 0 ∧
    rcSizeOk now ns ((fullKey, (payload, e)) :: rs) = rcSizeOk now ns rs := by
  refine ⟨?_, ?_, rfl, ?_⟩
  · simp only [cacheSize, liveEntryCount, expiredEntryCount,
      if_neg (by simp : ¬ (false = true))]
    have hsplit := length_filter_split s (fun x => decide (now ≤ x.2.2))
    have hcong : s.filter (fun x => !(decide (now ≤ x.2.2)))
        = s.filter (fun x => decide (now > x.2.2)) := by
      refine List.filter_congr ?_
      intro a _
      rcases Int.lt_or_le a.2.2 now with h | h
      · simp [h, Int.not_le.mpr h]
      · simp [h, Int.not_lt.mpr h]
    rw [hcong] at hsplit
    omega
  · simp only [cacheSize, cacheCleanup, liveEntryCount,
      if_neg (by simp : ¬ (false = true))]
    have hcong : s.filter (fun x => !(decide (now > x.2.2)))
        = s.filter (fun x => decide (now ≤ x.2.2)) := by
      refine List.filter_congr ?_
      intro a _
      rcases Int.lt_or_le a.2.2 now with h | h
      · simp [h, Int.not_le.mpr h]
      · simp [h, Int.not_lt.mpr h]
    rw [hcong]
  · simp only [rcSizeOk, List.filter_cons]
    rw [if_neg (by simp [Int.not_le.mpr hexp])]

/-- Witness for C9's amended theorem at a concrete input. -/
theorem c9_size_amended_witness :
    cacheSize false [("k", (true, 5))]
      = liveEntryCount 10 [("k", (true, 5))]
        + expiredEntryCount 10 [("k", (true, 5))] ∧
    cacheSize false (cacheCleanup false 10 [("k", (true, 5))])
      = liveEntryCount 10 [("k", (true, 5))] ∧
    cacheSize true [("k", (true, 5))] = 0 ∧
    rcSizeOk 10 "user" (("user:x", ("true", 4)) :: [("user:k", ("true", 20))])
      = rcSizeOk 10 "user" [("user:k", ("true", 20))] :=
  c9_size_amended [("k", (true, 5))] 10 "user" "user:x" "true"
    [("user:k", ("true", 20))] 4 (by decide)

/-- C4 counterexample: in the local-map limiter a denied call does NOT
increment the stored counter — with `max = 1` and a window at its ceiling,
the check is denied but the stored count stays 1 (the claim requires 2). -/
theorem c4_counterexample :
    (memoryRateLimit 100 1 "k" 10 [("k", ((1 : Int), (100 : Int)))]).1.success
      = false ∧
    jsGet (memoryRateLimit 100 1 "k" 10 [("k", ((1 : Int), (100 : Int)))]).2 "k"
      = some (1, 100) ∧
    ¬ jsGet (memoryRateLimit 100 1 "k" 10 [("k", ((1 : Int), (100 : Int)))]).2 "k"
      = some (2, 100) := by
  decide

/-- C4 amended: at the ceiling inside an open window, a further check is
denied and the reported reset is the original window expiry (not extended) on
both backends; the distributed backend still increments the stored counter by
the denied call, but the local-map backend leaves its stored counter
unchanged. -/
theorem c4_denied_requests (windowMs maxReq now c E : Int) (k : String)
    (m : MemStore) (w2 mx2 now2 c2 E2 : Int) (k2 : String) (s : CStore)
    (hmg : jsGet m k = some (c, E)) (hopen : now ≤ E) (hceil : maxReq ≤ c)
    (hg2 : jsGet s k2 = some (c2, some E2)) (hopen2 : now2 < E2)
    (hceil2 : mx2 ≤ c2) (hmx2 : 1 ≤ mx2) :
    memoryRateLimit windowMs maxReq k now m
      = ({ success := false, limit := maxReq, remaining := 0, reset := E }, m) ∧
    redisRateLimit (ctrOk now2) w2 mx2 k2 now2 s
      = .ok ({ success := false, limit := mx2, remaining := 0, reset := E2 },
             jsSetA s k2 (c2 + 1, some E2)) := by
  constructor
  · simp only [memoryRateLimit, hmg]
    rw [if_neg (by omega : ¬ E < now), if_pos (by omega : c ≥ maxReq)]
  · have hlive : ctrLookupLive now2 s k2 = some (c2, some E2) := by
      simp [ctrLookupLive, hg2]
      omega
    have hincr : ctrIncr now2 k2 s = (c2 + 1, jsSetA s k2 (c2 + 1, some E2)) := by
      simp [ctrIncr, hlive]
    have hlive2 : ctrLookupLive now2 (jsSetA s k2 (c2 + 1, some E2)) k2
        = some (c2 + 1, some E2) := by
      simp [ctrLookupLive, jsGet_set_self]
      omega
    have hpttl : ctrPttl now2 k2 (jsSetA s k2 (c2 + 1, some E2)) = E2 - now2 := by
      simp [ctrPttl, hlive2]
    simp only [redisRateLimit, ctrOk, hincr, except_bind_ok]
    rw [if_neg (by omega : ¬ c2 + 1 = 1)]
    simp only [pure, Except.pure, except_bind_ok, hpttl]
    rw [if_pos (by omega : E2 - now2 > 0), if_pos (by omega : c2 + 1 > mx2)]
    have : now2 + (E2 - now2) = E2 := by omega
    rw [this]

/-- Witness for C4's amended theorem at a concrete input. -/
theorem c4_denied_requests_witness :
    memoryRateLimit 100 1 "k" 10 [("k", ((1 : Int), (100 : Int)))]
      = ({ success := false, limit := 1, remaining := 0, reset := 100 },
         [("k", ((1 : Int), (100 : Int)))]) ∧
    redisRateLimit (ctrOk 10) 100 1 "k" 10 [("k", ((1 : Int), some (100 : Int)))]
      = .ok ({ success := false, limit := 1, remaining := 0, reset := 100 },
             jsSetA [("k", ((1 : Int), some (100 : Int)))] "k" (1 + 1, some 100)) :=
  c4_denied_requests 100 1 10 1 100 "k" [("k", (1, 100))]
    100 1 10 1 100 "k" [("k", (1, some 100))]
    (by decide) (by decide) (by decide) (by decide) (by decide) (by decide)
    (by decide)

/-- C5: a check for an unseen or expired key starts a new window of duration
`windowMs` with stored count 1; with `maxRequests ≥ 1` it is allowed with
`remaining = maxRequests - 1` — on both backends. -/
theorem c5_fresh_window (windowMs maxReq now : Int) (k k2 : String)
    (m : MemStore) (s : CStore)
    (hm : jsGet m k = none ∨ ∃ c E, jsGet m k = some (c, E) ∧ E < now)
    (hs : ctrLookupLive now s k2 = none)
    (hw : 0 < windowMs) (hmax : 1 ≤ maxReq) :
    memoryRateLimit windowMs maxReq k now m
      = ({ success := true, limit := maxReq, remaining := maxReq - 1,
           reset := now + windowMs }, jsSetA m k (1, now + windowMs)) ∧
    redisRateLimit (ctrOk now) windowMs maxReq k2 now s
      = .ok ({ success := true, limit := maxReq, remaining := maxReq - 1,
               reset := now + windowMs },
             jsSetA s k2 (1, some (now + windowMs))) := by
  constructor
  · rcases hm with h | ⟨c, E, hc, hE⟩
    · simp [memoryRateLimit, h]
    · simp only [memoryRateLimit, hc]
      rw [if_pos hE]
  · have hincr : ctrIncr now k2 s = (1, jsSetA s k2 (1, none)) := by
      simp [ctrIncr, hs]
    have hlive1 : ctrLookupLive now (jsSetA s k2 (1, none)) k2
        = some (1, none) := by
      simp [ctrLookupLive, jsGet_set_self]
    have hpex : ctrPexpire now k2 windowMs (jsSetA s k2 (1, none))
        = jsSetA s k2 (1, some (now + windowMs)) := by
      simp [ctrPexpire, hlive1, jsSetA_same]
    have hlive2 : ctrLookupLive now (jsSetA s k2 (1, some (now + windowMs))) k2
        = some (1, some (now + windowMs)) := by
      simp [ctrLookupLive, jsGet_set_self]
      omega
    have hpttl : ctrPttl now k2 (jsSetA s k2 (1, some (now + windowMs)))
        = now + windowMs - now := by
      simp [ctrPttl, hlive2]
    simp only [redisRateLimit, ctrOk, hincr, except_bind_ok, if_pos rfl,
      hpex, hpttl]
    rw [if_pos (by omega : now + windowMs - now > 0),
      if_neg (by omega : ¬ (1 : Int) > maxReq)]
    have : now + (now + windowMs - now) = now + windowMs := by omega
    rw [this]
    simp [pure, Except.pure]

/-- Witness for C5 at a concrete input. -/
theorem c5_fresh_window_witness :
    memoryRateLimit 60000 3 "k" 7 ([] : MemStore)
      = ({ success := true, limit := 3, remaining := 3 - 1, reset := 7 + 60000 },
         jsSetA ([] : MemStore) "k" (1, 7 + 60000)) ∧
    redisRateLimit (ctrOk 7) 60000 3 "k" 7 ([] : CStore)
      = .ok ({ success := true, limit := 3, remaining := 3 - 1,
               reset := 7 + 60000 },
             jsSetA ([] : CStore) "k" (1, some (7 + 60000))) :=
  c5_fresh_window 60000 3 7 "k" "k" [] [] (Or.inl (by decide)) (by decide)
    (by decide) (by decide)

/-- C6: with `windowMs = 60000` and `max = 3`, four checks of the same key
within 60000 ms of simulated time are allowed, allowed, allowed, denied, and
the fourth response has `remaining = 0`. -/
theorem c6_four_calls (k : String) (t1 t2 t3 t4 : Int)
    (h12 : t1 ≤ t2) (h23 : t2 ≤ t3) (h34 : t3 ≤ t4) (h4 : t4 ≤ t1 + 60000) :
    (memoryRateLimit 60000 3 k t1 []).1.success = true ∧
    (memoryRateLimit 60000 3 k t2
      (memoryRateLimit 60000 3 k t1 []).2).1.success = true ∧
    (memoryRateLimit 60000 3 k t3
      (memoryRateLimit 60000 3 k t2
        (memoryRateLimit 60000 3 k t1 []).2).2).1.success = true ∧
    (memoryRateLimit 60000 3 k t4
      (memoryRateLimit 60000 3 k t3
        (memoryRateLimit 60000 3 k t2
          (memoryRateLimit 60000 3 k t1 []).2).2).2).1.success = false ∧
    (memoryRateLimit 60000 3 k t4
      (memoryRateLimit 60000 3 k t3
        (memoryRateLimit 60000 3 k t2
          (memoryRateLimit 60000 3 k t1 []).2).2).2).1.remaining = 0 := by
  have e1 : memoryRateLimit 60000 3 k t1 ([] : MemStore)
      = ({ success := true, limit := 3, remaining := 2, reset := t1 + 60000 },
         [(k, (1, t1 + 60000))]) := by
    simp [memoryRateLimit, jsGet, jsSetA]
  have hg1 : jsGet [(k, ((1 : Int), t1 + 60000))] k = some (1, t1 + 60000) := by
    simp [jsGet]
  have e2 : memoryRateLimit 60000 3 k t2 [(k, (1, t1 + 60000))]
      = ({ success := true, limit := 3, remaining := 1, reset := t1 + 60000 },
         [(k, (2, t1 + 60000))]) := by
    simp only [memoryRateLimit, hg1]
    rw [if_neg (by omega : ¬ t1 + 60000 < t2),
      if_neg (by norm_num : ¬ (1 : Int) ≥ 3)]
    norm_num
    simp [jsSetA]
  have hg2 : jsGet [(k, ((2 : Int), t1 + 60000))] k = some (2, t1 + 60000) := by
    simp [jsGet]
  have e3 : memoryRateLimit 60000 3 k t3 [(k, (2, t1 + 60000))]
      = ({ success := true, limit := 3, remaining := 0, reset := t1 + 60000 },
         [(k, (3, t1 + 60000))]) := by
    simp only [memoryRateLimit, hg2]
    rw [if_neg (by omega : ¬ t1 + 60000 < t3),
      if_neg (by norm_num : ¬ (2 : Int) ≥ 3)]
    norm_num
    simp [jsSetA]
  have hg3 : jsGet [(k, ((3 : Int), t1 + 60000))] k = some (3, t1 + 60000) := by
    simp [jsGet]
  have e4 : memoryRateLimit 60000 3 k t4 [(k, (3, t1 + 60000))]
      = ({ success := false, limit := 3, remaining := 0, reset := t1 + 60000 },
         [(k, (3, t1 + 60000))]) := by
    simp only [memoryRateLimit, hg3]
    rw [if_neg (by omega : ¬ t1 + 60000 < t4),
      if_pos (by norm_num : (3 : Int) ≥ 3)]
  rw [e1]
  simp only []
  rw [e2]
  simp only []
  rw [e3]
  simp only []
  rw [e4]
  simp

/-- Witness for C6 at concrete times. -/
theorem c6_four_calls_witness :
    (memoryRateLimit 60000 3 "k" 0 []).1.success = true ∧
    (memoryRateLimit 60000 3 "k" 1
      (memoryRateLimit 60000 3 "k" 0 []).2).1.success = true ∧
    (memoryRateLimit 60000 3 "k" 2
      (memoryRateLimit 60000 3 "k" 1
        (memoryRateLimit 60000 3 "k" 0 []).2).2).1.success = true ∧
    (memoryRateLimit 60000 3 "k" 3
      (memoryRateLimit 60000 3 "k" 2
        (memoryRateLimit 60000 3 "k" 1
          (memoryRateLimit 60000 3 "k" 0 []).2).2).2).1.success = false ∧
    (memoryRateLimit 60000 3 "k" 3
      (memoryRateLimit 60000 3 "k" 2
        (memoryRateLimit 60000 3 "k" 1
          (memoryRateLimit 60000 3 "k" 0 []).2).2).2).1.remaining = 0 :=
  c6_four_calls "k" 0 1 2 3 (by decide) (by decide) (by decide) (by decide)

/-- C1 counterexample: with a client whose store calls fail, the failing cache
read does NOT return absent and the failing counter increment does NOT fail
open — both propagate the store error to the caller (the source wraps neither
`redis.get` nor `redis.incr` in try/catch). -/
theorem c1_counterexample :
    rcGet decB true (kvFail .unreachable) "user" "k" ()
      = .error .unreachable ∧
    redisRateLimit (ctrFail .unreachable) 60000 3 "k" 0 ()
      = .error .unreachable := by
  constructor <;> rfl

/-- C1 amended: a distributed-store error at call time propagates to the
caller from both the cache read and the limiter increment; only a payload
that fails to deserialize is caught and reported absent, and only the
absence of configuration falls back (cache read reports absent, limiter runs
the local map). -/
theorem c1_error_propagation {V : Type} {σ₁ σ₂ σ₃ σ₄ : Type}
    (dc : String → Option V)
    (c1 : KvConn σ₁) (s1 : σ₁) (ns k1 : String) (err1 : StoreErr)
    (c2 : CtrConn σ₂) (s2 : σ₂) (k2 : String) (w mx now2 : Int)
    (err2 : StoreErr)
    (c3 : KvConn σ₃) (s3 s3' : σ₃) (ns3 k3 raw : String)
    (c4 : CtrConn σ₄) (m4 : MemStore) (s4 : σ₄) (k4 : String)
    (w4 mx4 now4 : Int)
    (hget : c1.get (rk ns k1) s1 = .error err1)
    (hincr : c2.incr k2 s2 = .error err2)
    (hok : c3.get (rk ns3 k3) s3 = .ok (some raw, s3'))
    (hraw : raw ≠ "") (hdc : dc raw = none) :
    rcGet dc true c1 ns k1 s1 = .error err1 ∧
    redisRateLimit c2 w mx k2 now2 s2 = .error err2 ∧
    rcGet dc true c3 ns3 k3 s3 = .ok (none, s3') ∧
    rateLimitCheck false c4 w4 mx4 k4 now4 m4 s4
      = .ok ((memoryRateLimit w4 mx4 k4 now4 m4).1,
             (memoryRateLimit w4 mx4 k4 now4 m4).2, s4) ∧
    rcGet dc false c1 ns k1 s1 = .ok (none, s1) := by
  refine ⟨?_, ?_, ?_, rfl, rfl⟩
  · simp [rcGet, hget]
  · simp [redisRateLimit, hincr]
  · simp [rcGet, hok, hraw, hdc]

/-- Witness for C1's amended theorem at concrete clients. -/
theorem c1_error_propagation_witness :
    rcGet decB true (kvFail .unreachable) "user" "k" ()
      = .error .unreachable ∧
    redisRateLimit (ctrFail .timeout) 60000 3 "k" 0 () = .error .timeout ∧
    rcGet decB true (kvConst "?") "user" "k" () = .ok (none, ()) ∧
    rateLimitCheck false (ctrFail .rejected) 60000 3 "k" 0 [] ()
      = .ok ((memoryRateLimit 60000 3 "k" 0 []).1,
             (memoryRateLimit 60000 3 "k" 0 []).2, ()) ∧
    rcGet decB false (kvFail .unreachable) "user" "k" () = .ok (none, ()) :=
  c1_error_propagation decB (kvFail .unreachable) () "user" "k" .unreachable
    (ctrFail .timeout) () "k" 60000 3 0 .timeout
    (kvConst "?") () () "user" "k" "?"
    (ctrFail .rejected) [] () "k" 60000 3 0
    rfl rfl rfl (by decide) rfl

/-- C2 counterexample: with the disable condition active (production AND a
configured store) the namespace instances are `RedisCache` objects that never
consult the flag, so `set` followed by `get` returns the value instead of
absent. -/
theorem c2_counterexample :
    DISABLE_IN_MEMORY_CACHE true true = true ∧
    tierGet decB true true "user" 0 "k"
        (tierSet encB true true "user" 300000 0 "k" true (some 5)
          ⟨[], []⟩)
      = some true := by
  constructor
  · rfl
  · rfl

/-- C2 amended: the disable flag no-ops every operation of the local-map
backend only; when a distributed store is configured the instances are
`RedisCache` objects that ignore the flag, so even with disablement active a
`set` followed by `get` returns the stored value. -/
theorem c2_disabled_bypass {V : Type} (s : CacheStore V) (k : String) (v : V)
    (ttl : Option Int) (d now : Int) (st : TierState V) (prodEnv : Bool)
    (ns : String) (enc : V → String) (dc : String → Option V)
    (hinv : dc (enc v) = some v) (henc : enc v ≠ "")
    (httl0 : 0 ≤ ttlOr ttl d) :
    cacheGet true now k s = (none, s) ∧
    cacheSet true d now k v ttl s = s ∧
    cacheDelete true k s = (false, s) ∧
    cacheClear true s = s ∧
    cacheHas true now k s = false ∧
    cacheSize true s = 0 ∧
    tierGet dc prodEnv true ns now k
        (tierSet enc prodEnv true ns d now k v ttl st)
      = some v := by
  refine ⟨rfl, rfl, rfl, rfl, rfl, rfl, ?_⟩
  have hrs : (tierSet enc prodEnv true ns d now k v ttl st).rs
      = jsSetA st.rs (rk ns k) (enc v, now + ttlOr ttl d) := by
    simp [tierSet, rcSet, kvOk, okOr]
  simp only [tierGet, if_pos rfl, hrs]
  have hkl : kvLookupLive now (jsSetA st.rs (rk ns k)
      (enc v, now + ttlOr ttl d)) (rk ns k) = some (enc v) := by
    simp [kvLookupLive, jsGet_set_self]
    omega
  simp [rcGet, kvOk, hkl, henc, hinv, okOr]

/-- Witness for C2's amended theorem at a concrete input. -/
theorem c2_disabled_bypass_witness :
    cacheGet true 0 "k" ([("x", (false, 9))] : CacheStore Bool)
      = (none, [("x", (false, 9))]) ∧
    cacheSet true 300000 0 "k" true (some 5) [("x", (false, 9))]
      = [("x", (false, 9))] ∧
    cacheDelete true "k" [("x", (false, 9))] = (false, [("x", (false, 9))]) ∧
    cacheClear true [("x", (false, 9))] = [("x", (false, 9))] ∧
    cacheHas true 0 "k" [("x", (false, 9))] = false ∧
    cacheSize true [("x", (false, 9))] = 0 ∧
    tierGet decB true true "user" 0 "k"
        (tierSet encB true true "user" 300000 0 "k" true (some 5)
          ⟨[("x", (false, 9))], []⟩)
      = some true :=
  c2_disabled_bypass [("x", (false, 9))] "k" true (some 5) 300000 0
    ⟨[("x", (false, 9))], []⟩ true "user" encB decB (by decide) (by decide)
    (by decide)

/-- C3 counterexample: the operation sequence `set k v (ttl 5)` at time 0
followed by `size()` at time 10 observes 1 on the local-map backend but 0 on
the distributed backend (the store expires the key natively, the local map
still holds it), so the two backends do not produce identical observable
results for every contract sequence. -/
theorem c3_counterexample :
    cacheSize false (cacheSet false 300000 0 "k" true (some 5) []) = 1 ∧
    rcSizeOk 10 "user"
        (okOr [] (rcSet encB true (kvOk 0) "user" 300000 "k" true (some 5) []))
      = 0 ∧
    cacheSize false (cacheSet false 300000 0 "k" true (some 5) [])
      ≠ rcSizeOk 10 "user"
          (okOr []
            (rcSet encB true (kvOk 0) "user" 300000 "k" true (some 5) [])) := by
  refine ⟨rfl, ?_, ?_⟩ <;> decide

/-- C3 amended: for lossless payloads the two backends agree on `get` at
every time after a `set`, on `has` away from the exact expiry instant, and on
`delete` for live or never-written keys, and a write to one key leaves a
different key untouched on both; they diverge only on expired-but-unswept
entries observed through `size` (and `delete`), which the local map still
counts and the distributed store does not. -/
theorem c3_backend_parity {V : Type} (enc : V → String)
    (dc : String → Option V) (ns k k' : String) (d ttl t0 tg th td : Int)
    (v : V)
    (hinv : dc (enc v) = some v) (henc : enc v ≠ "") (httl : 0 < ttl)
    (hth : th ≠ t0 + ttl) (htd : td ≤ t0 + ttl) (hk : k' ≠ k) :
    (cacheGet false tg k (cacheSet false d t0 k v (some ttl) [])).1
      = (okOr (none, ([] : RStore))
          (rcGet dc true (kvOk tg) ns k
            (okOr [] (rcSet enc true (kvOk t0) ns d k v (some ttl) [])))).1 ∧
    cacheHas false th k (cacheSet false d t0 k v (some ttl) [])
      = (okOr (false, ([] : RStore))
          (rcHas true (kvOk th) ns k
            (okOr [] (rcSet enc true (kvOk t0) ns d k v (some ttl) [])))).1 ∧
    (cacheDelete false k (cacheSet false d t0 k v (some ttl) [])).1 = true ∧
    (okOr (false, ([] : RStore))
        (rcDelete true (kvOk td) ns k
          (okOr [] (rcSet enc true (kvOk t0) ns d k v (some ttl) [])))).1
      = true ∧
    (cacheDelete false k' ([] : CacheStore V)).1 = false ∧
    (okOr (false, ([] : RStore)) (rcDelete true (kvOk td) ns k' [])).1
      = false ∧
    (cacheGet false tg k' (cacheSet false d t0 k v (some ttl) [])).1 = none ∧
    (okOr (none, ([] : RStore))
        (rcGet dc true (kvOk tg) ns k'
          (okOr [] (rcSet enc true (kvOk t0) ns d k v (some ttl) [])))).1
      = none := by
  have hne : ttl ≠ 0 := by omega
  have hset : cacheSet false d t0 k v (some ttl) [] = [(k, (v, t0 + ttl))] := by
    simp [cacheSet, ttlOr, hne, jsSetA]
  have hrset : okOr [] (rcSet enc true (kvOk t0) ns d k v (some ttl) [])
      = [(rk ns k, (enc v, t0 + ttl))] := by
    simp [okOr, rcSet, kvOk, ttlOr, hne, jsSetA]
  have hrkne : rk ns k' ≠ rk ns k := fun h => hk (rk_inj_right ns k' k h)
  refine ⟨?_, ?_, ?_, ?_, rfl, ?_, ?_, ?_⟩
  · rw [hset, hrset]
    rcases le_or_lt tg (t0 + ttl) with h | h
    · simp [cacheGet, jsGet, rcGet, kvOk, kvLookupLive, okOr, henc, hinv,
        Int.not_lt.mpr h, h]
    · simp [cacheGet, jsGet, rcGet, kvOk, kvLookupLive, okOr, h,
        Int.not_le.mpr h]
  · rw [hset, hrset]
    rcases le_or_lt th (t0 + ttl) with h | h
    · have hlt : th < t0 + ttl := lt_of_le_of_ne h hth
      simp [cacheHas, jsGet, rcHas, kvOk, okOr, h]
      omega
    · simp [cacheHas, jsGet, rcHas, kvOk, okOr, Int.not_le.mpr h, h]
  · rw [hset]
    simp [cacheDelete, jsHasKey]
  · rw [hrset]
    simp [rcDelete, kvOk, kvLookupLive, jsGet, okOr, htd]
  · simp [rcDelete, kvOk, kvLookupLive, jsGet, okOr]
  · rw [hset]
    have hk2 : ¬ (k = k') := fun h => hk h.symm
    simp [cacheGet, jsGet, hk2]
  · rw [hrset]
    have hrk2 : ¬ (rk ns k = rk ns k') := fun h => hrkne h.symm
    simp [rcGet, kvOk, kvLookupLive, jsGet, okOr, hrk2]

/-- Witness for C3's amended theorem at a concrete input. -/
theorem c3_backend_parity_witness :
    (cacheGet false 3 "a" (cacheSet false 300000 0 "a" true (some 5) [])).1
      = (okOr (none, ([] : RStore))
          (rcGet decB true (kvOk 3) "user" "a"
            (okOr []
              (rcSet encB true (kvOk 0) "user" 300000 "a" true (some 5)
                [])))).1 ∧
    cacheHas false 3 "a" (cacheSet false 300000 0 "a" true (some 5) [])
      = (okOr (false, ([] : RStore))
          (rcHas true (kvOk 3) "user" "a"
            (okOr []
              (rcSet encB true (kvOk 0) "user" 300000 "a" true (some 5)
                [])))).1 ∧
    (cacheDelete false "a" (cacheSet false 300000 0 "a" true (some 5) [])).1
      = true ∧
    (okOr (false, ([] : RStore))
        (rcDelete true (kvOk 3) "user" "a"
          (okOr []
            (rcSet encB true (kvOk 0) "user" 300000 "a" true (some 5) [])))).1
      = true ∧
    (cacheDelete false "b" ([] : CacheStore Bool)).1 = false ∧
    (okOr (false, ([] : RStore)) (rcDelete true (kvOk 3) "user" "b" [])).1
      = false ∧
    (cacheGet false 3 "b" (cacheSet false 300000 0 "a" true (some 5) [])).1
      = none ∧
    (okOr (none, ([] : RStore))
        (rcGet decB true (kvOk 3) "user" "b"
          (okOr []
            (rcSet encB true (kvOk 0) "user" 300000 "a" true (some 5) [])))).1
      = none :=
  c3_backend_parity encB decB "user" "a" "b" 300000 5 0 3 3 3 true
    (by decide) (by decide) (by decide) (by decide) (by decide) (by decide)

end ThcCache
